import Mathlib

/-!
# Verification of the sales-analysis aggregation engine

Shallow embedding of `src/analyzer.py` (class `SalesAnalyzer`).

Modelling conventions:
* A pandas `DataFrame` becomes a `Frame`: a `Schema` of column-presence
  flags plus a list of `Record`s.  The analyzer only ever tests column
  presence and reads cell values, so fields of absent columns are simply
  ignored.
* Numeric cells are exact rationals `ℚ`; `numpy`/pandas `round(2)` is
  modelled as exact round-half-to-even at two decimals (`round2`).  The
  integer-valued `count` aggregate, which `round(2)` leaves unchanged, is
  kept as a `ℕ`.
* `groupby(key)` (pandas default `sort=True`) enumerates the distinct key
  values in ascending lexicographic (code-point) order (`groupKeys`) and
  aggregates the records carrying each key.
* A pandas `.agg` call whose column dictionary mentions a column that the
  frame lacks raises `KeyError`; fallible operations therefore return
  `Except String _`.  The analyzer builds the dictionary value for
  `'Profit'` as `'sum' if 'Profit' in columns else None`, so the key
  `'Profit'` is present in the dictionary either way, and a frame without
  a `Profit` column makes the aggregation raise.
* Division by zero yields `0` in `ℚ` where pandas would produce `NaN`;
  theorems about ratio columns carry a nonzero-denominator hypothesis
  wherever that distinction could matter.
-/

namespace SalesAnalysis

/-- Round-half-to-even of a rational to an integer (the rounding used by
`numpy.round`, modelled on exact values). -/
def roundHalfEven (q : ℚ) : ℤ :=
  let f := ⌊q⌋
  if q < f + 1/2 then f
  else if (f : ℚ) + 1/2 < q then f + 1
  else if f % 2 = 0 then f else f + 1

/-- `round(x, 2)`: round to two decimal places. -/
def round2 (q : ℚ) : ℚ := (roundHalfEven (q * 100) : ℚ) / 100

/-- Which columns the input frame possesses (pandas `df.columns`). -/
structure Schema where
  hasSaleDate : Bool
  hasProductCategory : Bool
  hasRegion : Bool
  hasSalesRep : Bool
  hasCustomerType : Bool
  hasProductId : Bool
  hasSalesAmount : Bool
  hasQuantitySold : Bool
  hasProfit : Bool
deriving DecidableEq

/-- One transaction row.  Fields whose column is absent from the schema
are ignored by every operation. -/
structure Record where
  sale_year : Nat
  sale_month : Nat
  sale_day : Nat
  product_category : String
  region : String
  sales_rep : String
  customer_type : String
  product_id : String
  sales_amount : ℚ
  quantity_sold : ℚ
  profit : ℚ
deriving DecidableEq

/-- The cleaned transaction table handed to `SalesAnalyzer`. -/
structure Frame where
  schema : Schema
  rows : List Record
deriving DecidableEq

/-- Two-digit zero padding, as in `strftime`. -/
def pad2 (n : Nat) : String := if n < 10 then "0" ++ toString n else toString n

/-- `Sale_Date.dt.strftime('%Y-%m')` applied to one record. -/
def monthKey (r : Record) : String :=
  toString r.sale_year ++ "-" ++ pad2 r.sale_month

/-- Boolean strict lexicographic order on character lists (pandas compares
strings by code point). -/
def lexLt : List Char → List Char → Bool
  | [], [] => false
  | [], _ :: _ => true
  | _ :: _, [] => false
  | a :: as, b :: bs => if a < b then true else if b < a then false else lexLt as bs

/-- Strict lexicographic order on strings. -/
def strLt (a b : String) : Bool := lexLt a.data b.data

/-- Non-strict lexicographic order on strings. -/
def strLe (a b : String) : Bool := ! strLt b a

/-- Boolean membership in a list of strings. -/
def memberStr (k : String) : List String → Bool
  | [] => false
  | b :: l => if k = b then true else memberStr k l

/-- Distinct values of a key column (each value once). -/
def dedupKeys : List String → List String
  | [] => []
  | k :: l => if memberStr k l then dedupKeys l else k :: dedupKeys l

/-- Insert into a list kept in ascending lexicographic order. -/
def insertAsc (k : String) : List String → List String
  | [] => [k]
  | b :: l => if strLe k b then k :: b :: l else b :: insertAsc k l

/-- Sort strings ascending (insertion sort). -/
def sortAsc : List String → List String
  | [] => []
  | k :: l => insertAsc k (sortAsc l)

/-- The distinct values of a grouping column in ascending order — the
group enumeration order of `groupby` with its default `sort=True`. -/
def groupKeys (ks : List String) : List String := sortAsc (dedupKeys ks)

/-- Insert into a list kept descending by the measure `f` (used to model
`sort_values(..., ascending=False)`). -/
def insertDescBy {α : Type} (f : α → ℚ) (a : α) : List α → List α
  | [] => [a]
  | b :: l => if f b ≤ f a then a :: b :: l else b :: insertDescBy f a l

/-- Sort a list descending by the measure `f`. -/
def sortDescBy {α : Type} (f : α → ℚ) : List α → List α
  | [] => []
  | a :: l => insertDescBy f a (sortDescBy f l)

/-- Sum of a rational measure over a list of records. -/
def sumBy (g : List Record) (f : Record → ℚ) : ℚ := (g.map f).sum

/-- The records of one group. -/
def groupOf (fr : Frame) (key : Record → String) (k : String) : List Record :=
  fr.rows.filter (fun r => key r = k)

/-! ## The six views of `SalesAnalyzer` -/

/-- Row of the time-series view (`analyze_sales_over_time`): columns
`Общая_выручка`, `Количество_продаж`, `Прибыль`, indexed by `Month_Year`. -/
structure TimeRow where
  month : String
  revenue : ℚ
  count : ℕ
  profit : ℚ
deriving DecidableEq

/-- `analyze_sales_over_time`: monthly revenue, transaction count and
profit, grouped on the `Month_Year` key.  The `agg` dictionary always
contains the `Profit` key (`'sum' if 'Profit' in df.columns else None`),
so the aggregation raises `KeyError` when `Profit` (or `Sales_Amount`)
is absent. -/
def analyze_sales_over_time (fr : Frame) : Except String (List TimeRow) :=
  if fr.schema.hasSaleDate = false then .ok []
  else if fr.schema.hasSalesAmount && fr.schema.hasProfit then
    .ok ((groupKeys (fr.rows.map monthKey)).map (fun k =>
      let g := groupOf fr monthKey k
      { month := k
        revenue := round2 (sumBy g (fun r => r.sales_amount))
        count := g.length
        profit := round2 (sumBy g (fun r => r.profit)) }))
  else .error "KeyError: aggregation column does not exist"

/-- Row of the category view (`analyze_by_category`): columns
`Общая_выручка`, `Количество_продаж`, `Средний_чек`, `Прибыль`,
`Количество_товаров`, `Доля_рынка_%`. -/
structure CatRow where
  category : String
  revenue : ℚ
  count : ℕ
  avg : ℚ
  profit : ℚ
  quantity : ℚ
  share : ℚ
deriving DecidableEq

/-- The aggregated per-category statistics (`category_stats` before the
market-share column is attached); the `share` field is a placeholder `0`
at this stage. -/
def category_stats (fr : Frame) : List CatRow :=
  (groupKeys (fr.rows.map (fun r => r.product_category))).map (fun k =>
    let g := groupOf fr (fun r => r.product_category) k
    { category := k
      revenue := round2 (sumBy g (fun r => r.sales_amount))
      count := g.length
      avg := round2 (sumBy g (fun r => r.sales_amount) / g.length)
      profit := round2 (sumBy g (fun r => r.profit))
      quantity := round2 (sumBy g (fun r => r.quantity_sold))
      share := 0 })

/-- `total_sales = category_stats['Общая_выручка'].sum()` — note: the sum
of the already-rounded group revenues. -/
def total_sales (fr : Frame) : ℚ := ((category_stats fr).map (fun r => r.revenue)).sum

/-- `analyze_by_category`: per-category statistics with market share,
sorted descending by revenue.  Raises when `Sales_Amount`, `Profit` or
`Quantity_Sold` is absent (all three are keys of the `agg` dictionary). -/
def analyze_by_category (fr : Frame) : Except String (List CatRow) :=
  if fr.schema.hasProductCategory = false then .ok []
  else if fr.schema.hasSalesAmount && fr.schema.hasProfit && fr.schema.hasQuantitySold then
    .ok (sortDescBy (fun r => r.revenue)
      ((category_stats fr).map (fun r =>
        { r with share := round2 (r.revenue / total_sales fr * 100) })))
  else .error "KeyError: aggregation column does not exist"

/-- Row of the region view (`analyze_by_region`) and of the customer-type
view (`analyze_by_customer_type`): columns `Общая_выручка`,
`Количество_продаж`, `Средний_чек`, `Прибыль`. -/
structure KeyRow where
  key : String
  revenue : ℚ
  count : ℕ
  avg : ℚ
  profit : ℚ
deriving DecidableEq

/-- The shared sum/count/mean/profit aggregation of the region, sales-rep
and customer-type views. -/
def key_stats (fr : Frame) (key : Record → String) : List KeyRow :=
  (groupKeys (fr.rows.map key)).map (fun k =>
    let g := groupOf fr key k
    { key := k
      revenue := round2 (sumBy g (fun r => r.sales_amount))
      count := g.length
      avg := round2 (sumBy g (fun r => r.sales_amount) / g.length)
      profit := round2 (sumBy g (fun r => r.profit)) })

/-- `analyze_by_region`: per-region statistics sorted descending by
revenue. -/
def analyze_by_region (fr : Frame) : Except String (List KeyRow) :=
  if fr.schema.hasRegion = false then .ok []
  else if fr.schema.hasSalesAmount && fr.schema.hasProfit then
    .ok (sortDescBy (fun r => r.revenue) (key_stats fr (fun r => r.region)))
  else .error "KeyError: aggregation column does not exist"

/-- Row of the sales-rep view (`analyze_sales_reps`): the shared columns
plus the optional `Эффективность` column. -/
structure RepRow where
  rep : String
  revenue : ℚ
  count : ℕ
  avg : ℚ
  profit : ℚ
  efficiency : Option ℚ
deriving DecidableEq

/-- `rep_stats` before the efficiency column is attached. -/
def rep_stats (fr : Frame) : List RepRow :=
  (groupKeys (fr.rows.map (fun r => r.sales_rep))).map (fun k =>
    let g := groupOf fr (fun r => r.sales_rep) k
    { rep := k
      revenue := round2 (sumBy g (fun r => r.sales_amount))
      count := g.length
      avg := round2 (sumBy g (fun r => r.sales_amount) / g.length)
      profit := round2 (sumBy g (fun r => r.profit))
      efficiency := none })

/-- `analyze_sales_reps`: per-rep statistics, with the efficiency column
added to the whole table when the guard
`rep_stats['Количество_продаж'].sum() > 0` holds (the first conjunct of
the source's guard, a column-presence test, is always true after the
rename), sorted descending by revenue. -/
def analyze_sales_reps (fr : Frame) : Except String (List RepRow) :=
  if fr.schema.hasSalesRep = false then .ok []
  else if fr.schema.hasSalesAmount && fr.schema.hasProfit then
    let stats := rep_stats fr
    let stats2 :=
      if 0 < (stats.map (fun r => r.count)).sum then
        stats.map (fun r =>
          { r with efficiency := some (round2 (r.revenue / (r.count : ℚ))) })
      else stats
    .ok (sortDescBy (fun r => r.revenue) stats2)
  else .error "KeyError: aggregation column does not exist"

/-- `analyze_by_customer_type`: per-customer-type statistics, left in the
group enumeration order (no `sort_values` call). -/
def analyze_by_customer_type (fr : Frame) : Except String (List KeyRow) :=
  if fr.schema.hasCustomerType = false then .ok []
  else if fr.schema.hasSalesAmount && fr.schema.hasProfit then
    .ok (key_stats fr (fun r => r.customer_type))
  else .error "KeyError: aggregation column does not exist"

/-- Row of the top-products view (`get_top_products`): the `agg` result
columns are revenue, summed quantity and profit; the source renames the
summed-quantity column to `Количество_продаж`. -/
structure ProdRow where
  product_id : String
  revenue : ℚ
  quantity : ℚ
  profit : ℚ
deriving DecidableEq

/-- `product_stats`: the per-product aggregation of `get_top_products`. -/
def product_stats (fr : Frame) : List ProdRow :=
  (groupKeys (fr.rows.map (fun r => r.product_id))).map (fun k =>
    let g := groupOf fr (fun r => r.product_id) k
    { product_id := k
      revenue := round2 (sumBy g (fun r => r.sales_amount))
      quantity := round2 (sumBy g (fun r => r.quantity_sold))
      profit := round2 (sumBy g (fun r => r.profit)) })

/-- `get_top_products(n)`: per-product statistics sorted descending by
revenue and truncated to the first `n` rows (`.head(n)`). -/
def get_top_products (fr : Frame) (n : ℕ := 10) : Except String (List ProdRow) :=
  if fr.schema.hasProductId = false then .ok []
  else if fr.schema.hasSalesAmount && fr.schema.hasQuantitySold && fr.schema.hasProfit then
    .ok ((sortDescBy (fun r => r.revenue) (product_stats fr)).take n)
  else .error "KeyError: aggregation column does not exist"

/-- A value of the report dictionary (one view's table). -/
inductive ViewResult where
  | time : List TimeRow → ViewResult
  | category : List CatRow → ViewResult
  | region : List KeyRow → ViewResult
  | reps : List RepRow → ViewResult
  | top : List ProdRow → ViewResult
deriving DecidableEq

/-- `get_comprehensive_report`: the report dictionary, assembled in the
source's insertion order.  Exactly five entries are inserted; the
customer-type view is never added.  A view that raises aborts the whole
report (the earliest raise wins, mirroring Python's sequential calls). -/
def get_comprehensive_report (fr : Frame) : Except String (List (String × ViewResult)) :=
  match analyze_sales_over_time fr, analyze_by_category fr, analyze_by_region fr,
        analyze_sales_reps fr, get_top_products fr 10 with
  | .error e, _, _, _, _ => .error e
  | .ok _, .error e, _, _, _ => .error e
  | .ok _, .ok _, .error e, _, _ => .error e
  | .ok _, .ok _, .ok _, .error e, _ => .error e
  | .ok _, .ok _, .ok _, .ok _, .error e => .error e
  | .ok t, .ok c, .ok r, .ok s, .ok p =>
    .ok [("Временной_анализ", .time t), ("Анализ_по_категориям", .category c),
         ("Анализ_по_регионам", .region r), ("Анализ_продавцов", .reps s),
         ("Топ_продукты", .top p)]

/-- The key list of the report dictionary. -/
def reportKeys (fr : Frame) : Except String (List String) :=
  (get_comprehensive_report fr).map (fun l => l.map Prod.fst)

/-! ## Concrete fixtures used by witnesses and counterexamples -/

/-- Base record; fixtures override the relevant fields. -/
def rec0 : Record :=
  { sale_year := 2023, sale_month := 1, sale_day := 1
    product_category := "", region := "", sales_rep := "", customer_type := ""
    product_id := "", sales_amount := 0, quantity_sold := 0, profit := 0 }

/-- Schema with no recognised column. -/
def schemaNone : Schema := ⟨false, false, false, false, false, false, false, false, false⟩

/-- Schema with every recognised column. -/
def schemaAll : Schema := ⟨true, true, true, true, true, true, true, true, true⟩

/-- A non-empty frame none of whose grouping columns exists. -/
def frameNone : Frame := { schema := schemaNone, rows := [rec0] }

/-- The spec's time-series scenario (sale dates 2023-01-05 and 2023-01-20,
amounts 50 and 70) with a profit column also present. -/
def tsFrame : Frame :=
  { schema := { schemaNone with hasSaleDate := true, hasSalesAmount := true, hasProfit := true }
    rows := [ { rec0 with sale_day := 5, sales_amount := 50, profit := 5 },
              { rec0 with sale_day := 20, sales_amount := 70, profit := 7 } ] }

/-- The spec's time-series scenario with exactly the mentioned columns:
sale dates and amounts, no profit column. -/
def tsFrameNoProfit : Frame :=
  { schema := { schemaNone with hasSaleDate := true, hasSalesAmount := true }
    rows := [ { rec0 with sale_day := 5, sales_amount := 50 },
              { rec0 with sale_day := 20, sales_amount := 70 } ] }

/-- A one-category frame lacking the profit column. -/
def catFrameNoProfit : Frame :=
  { schema := { schemaNone with hasProductCategory := true, hasSalesAmount := true, hasQuantitySold := true }
    rows := [ { rec0 with product_category := "A", sales_amount := 100, quantity_sold := 1 } ] }

/-- The spec's category scenario (A: 100, B: 300), all columns present. -/
def catFrame : Frame :=
  { schema := schemaAll
    rows := [ { rec0 with product_category := "A", region := "N", sales_rep := "r1"
                          customer_type := "new", product_id := "p1", sales_amount := 100
                          quantity_sold := 1, profit := 10 },
              { rec0 with product_category := "B", region := "S", sales_rep := "r2"
                          customer_type := "old", product_id := "p2", sales_amount := 300
                          quantity_sold := 2, profit := 30 } ] }

/-- Every column except `Region`. -/
def frameNoRegion : Frame :=
  { schema := { schemaAll with hasRegion := false }
    rows := [ { rec0 with product_category := "A", sales_rep := "r1"
                          customer_type := "new", product_id := "p1", sales_amount := 100
                          quantity_sold := 1, profit := 10 } ] }

/-- Two categories whose revenues are rounded before the share is
computed: 1.006 rounds to 1.01, so the shares the code produces use
1.01/2.01 where unrounded sums would use 1.006/2.006. -/
def c4Frame : Frame :=
  { schema := { schemaNone with hasProductCategory := true, hasSalesAmount := true, hasQuantitySold := true, hasProfit := true }
    rows := [ { rec0 with product_category := "A", sales_amount := 1006/1000, quantity_sold := 1 },
              { rec0 with product_category := "B", sales_amount := 1, quantity_sold := 1 } ] }

/-- Helper for the 24-category frame: one record with a given category and
amount. -/
def catRec (c : String) (amt : ℚ) : Record :=
  { rec0 with product_category := c, sales_amount := amt, quantity_sold := 1 }

/-- 24 categories: 23 with revenue 5 and one with revenue 19885 (total
20000).  Every market share is an exact tie at the third decimal
(5/20000 = 0.025 %, 19885/20000 = 99.425 %) whose round-half-even goes
down, so the rounded shares sum to 99.88. -/
def c6Frame : Frame :=
  { schema := { schemaNone with hasProductCategory := true, hasSalesAmount := true, hasQuantitySold := true, hasProfit := true }
    rows := [ catRec "C00" 5, catRec "C01" 5, catRec "C02" 5, catRec "C03" 5,
              catRec "C04" 5, catRec "C05" 5, catRec "C06" 5, catRec "C07" 5,
              catRec "C08" 5, catRec "C09" 5, catRec "C10" 5, catRec "C11" 5,
              catRec "C12" 5, catRec "C13" 5, catRec "C14" 5, catRec "C15" 5,
              catRec "C16" 5, catRec "C17" 5, catRec "C18" 5, catRec "C19" 5,
              catRec "C20" 5, catRec "C21" 5, catRec "C22" 5, catRec "Z" 19885 ] }

/-- The category-view row for `"A"` in `catFrame`. -/
def catRowA : CatRow := ⟨"A", 100, 1, 100, 10, 1, 25⟩

/-- The category-view row for `"B"` in `catFrame`. -/
def catRowB : CatRow := ⟨"B", 300, 1, 300, 30, 2, 75⟩

/-- The customer-type rows of `catFrame`. -/
def custRowNew : KeyRow := ⟨"new", 100, 1, 100, 10⟩

def custRowOld : KeyRow := ⟨"old", 300, 1, 300, 30⟩

/-- The sales-rep rows of `catFrame`. -/
def repRow1 : RepRow := ⟨"r1", 100, 1, 100, 10, some 100⟩

def repRow2 : RepRow := ⟨"r2", 300, 1, 300, 30, some 300⟩

/-- The single time-series row of `tsFrame`. -/
def timeRow0 : TimeRow := ⟨"2023-01", 120, 2, 12⟩

/-! ## Generic lemmas about the sorting and grouping helpers -/

theorem insertDescBy_perm {α : Type} (f : α → ℚ) (a : α) (l : List α) :
    (insertDescBy f a l).Perm (a :: l) := by
  induction l with
  | nil => simp [insertDescBy]
  | cons b t ih =>
    rw [insertDescBy]
    split_ifs
    · exact .refl _
    · exact .trans (.cons b ih) (.swap a b t)

theorem sortDescBy_perm {α : Type} (f : α → ℚ) (l : List α) :
    (sortDescBy f l).Perm l := by
  induction l with
  | nil => simp [sortDescBy]
  | cons a t ih =>
    exact .trans (insertDescBy_perm f a (sortDescBy f t)) (.cons a ih)

theorem mem_sortDescBy {α : Type} {f : α → ℚ} {a : α} {l : List α} :
    a ∈ sortDescBy f l ↔ a ∈ l :=
  (sortDescBy_perm f l).mem_iff

theorem chain'_insertDescBy {α : Type} {f : α → ℚ} {a : α} {l : List α}
    (h : List.Chain' (fun x y => f y ≤ f x) l) :
    List.Chain' (fun x y => f y ≤ f x) (insertDescBy f a l) := by
  induction l with
  | nil => simp [insertDescBy]
  | cons b t ih =>
    rw [insertDescBy]
    split_ifs with hba
    · exact h.cons hba
    · have hab : f a ≤ f b := le_of_not_le hba
      rw [List.chain'_cons']
      refine ⟨?_, ih h.tail⟩
      intro y hy
      cases t with
      | nil =>
        simp [insertDescBy] at hy
        subst hy; exact hab
      | cons c u =>
        rw [insertDescBy] at hy
        split_ifs at hy with hca
        · simp at hy; subst hy; exact hab
        · simp at hy; subst hy; exact h.rel_head

theorem sortDescBy_chain' {α : Type} (f : α → ℚ) (l : List α) :
    List.Chain' (fun x y => f y ≤ f x) (sortDescBy f l) := by
  induction l with
  | nil => simp [sortDescBy]
  | cons a t ih => exact chain'_insertDescBy ih

theorem sortDescBy_map_sum {α : Type} (f g : α → ℚ) (l : List α) :
    ((sortDescBy f l).map g).sum = (l.map g).sum :=
  ((sortDescBy_perm f l).map g).sum_eq

theorem lexLt_asymm : ∀ {x y : List Char}, lexLt x y = true → lexLt y x = false
  | [], [] => by simp [lexLt]
  | [], _ :: _ => by simp [lexLt]
  | _ :: _, [] => by simp [lexLt]
  | a :: as, b :: bs => by
    intro h
    by_cases h1 : a < b
    · rw [lexLt, if_neg (asymm h1), if_pos h1]
    · by_cases h2 : b < a
      · rw [lexLt, if_neg h1, if_pos h2] at h
        exact absurd h (by simp)
      · rw [lexLt, if_neg h1, if_neg h2] at h
        rw [lexLt, if_neg h2, if_neg h1]
        exact lexLt_asymm h

theorem lexLt_antisymm : ∀ {x y : List Char},
    lexLt x y = false → lexLt y x = false → x = y
  | [], [] => by intro _ _; rfl
  | [], _ :: _ => by intro h _; simp [lexLt] at h
  | _ :: _, [] => by intro _ h; simp [lexLt] at h
  | a :: as, b :: bs => by
    intro h h'
    by_cases h1 : a < b
    · rw [lexLt, if_pos h1] at h
      exact absurd h (by simp)
    · by_cases h2 : b < a
      · rw [lexLt, if_pos h2] at h'
        exact absurd h' (by simp)
      · rw [lexLt, if_neg h1, if_neg h2] at h
        rw [lexLt, if_neg h2, if_neg h1] at h'
        have hab : a = b := le_antisymm (not_lt.mp h2) (not_lt.mp h1)
        rw [hab, lexLt_antisymm h h']

theorem lexLt_iff_lex : ∀ (x y : List Char),
    lexLt x y = true ↔ List.Lex (· < ·) x y
  | [], [] => by
    constructor
    · intro h; simp [lexLt] at h
    · intro h; cases h
  | [], b :: bs => by
    constructor
    · intro _; exact List.Lex.nil
    · intro _; rw [lexLt]
  | a :: as, [] => by
    constructor
    · intro h; simp [lexLt] at h
    · intro h; cases h
  | a :: as, b :: bs => by
    by_cases h1 : a < b
    · rw [lexLt, if_pos h1]
      exact ⟨fun _ => List.Lex.rel h1, fun _ => rfl⟩
    · by_cases h2 : b < a
      · rw [lexLt, if_neg h1, if_pos h2]
        constructor
        · intro h; exact absurd h (by simp)
        · intro h
          cases h with
          | rel h' => exact absurd h' h1
          | cons h' => exact absurd h2 (lt_irrefl _)
      · have hab : a = b := le_antisymm (not_lt.mp h2) (not_lt.mp h1)
        subst hab
        rw [lexLt, if_neg h1, if_neg h1]
        constructor
        · intro h; exact List.Lex.cons ((lexLt_iff_lex as bs).mp h)
        · intro h
          cases h with
          | rel h' => exact absurd h' h1
          | cons h' => exact (lexLt_iff_lex as bs).mpr h'

theorem strLt_iff_lex {a b : String} :
    strLt a b = true ↔ List.Lex (· < ·) a.data b.data :=
  lexLt_iff_lex a.data b.data

theorem strLe_of_not_strLe {a b : String} (h : ¬ strLe a b = true) :
    strLe b a = true := by
  have h1 : strLt b a = true := by
    cases hba : strLt b a with
    | false => exact absurd (by rw [strLe, hba]; rfl) h
    | true => rfl
  rw [strLt] at h1
  have h2 : lexLt a.data b.data = false := lexLt_asymm h1
  rw [strLe, strLt, h2]; rfl

theorem strLt_of_strLe_of_ne {a b : String} (hle : strLe a b = true) (hne : a ≠ b) :
    strLt a b = true := by
  rw [strLe, Bool.not_eq_true'] at hle
  by_contra hlt
  rw [Bool.not_eq_true, strLt] at hlt
  rw [strLt] at hle
  apply hne
  have hd := lexLt_antisymm hlt hle
  cases a; cases b
  exact congrArg String.mk hd

theorem memberStr_iff {k : String} : ∀ {l : List String}, memberStr k l = true ↔ k ∈ l := by
  intro l
  induction l with
  | nil => simp [memberStr]
  | cons b t ih =>
    rw [memberStr]
    split_ifs with h
    · subst h; simp
    · simp [ih, h]

theorem mem_dedupKeys {k : String} : ∀ {l : List String}, k ∈ dedupKeys l ↔ k ∈ l := by
  intro l
  induction l with
  | nil => simp [dedupKeys]
  | cons b t ih =>
    rw [dedupKeys]
    split_ifs with h
    · rw [ih]
      rw [memberStr_iff] at h
      constructor
      · exact List.mem_cons_of_mem b
      · intro hk
        rcases List.mem_cons.mp hk with rfl | hk
        · exact h
        · exact hk
    · simp [ih]

theorem nodup_dedupKeys : ∀ (l : List String), (dedupKeys l).Nodup := by
  intro l
  induction l with
  | nil => simp [dedupKeys]
  | cons b t ih =>
    rw [dedupKeys]
    split_ifs with h
    · exact ih
    · refine List.Nodup.cons ?_ ih
      rw [mem_dedupKeys]
      intro hb
      rw [← memberStr_iff] at hb
      simp [hb] at h

theorem insertAsc_perm (k : String) (l : List String) :
    (insertAsc k l).Perm (k :: l) := by
  induction l with
  | nil => simp [insertAsc]
  | cons b t ih =>
    rw [insertAsc]
    split_ifs
    · exact .refl _
    · exact .trans (.cons b ih) (.swap k b t)

theorem sortAsc_perm (l : List String) : (sortAsc l).Perm l := by
  induction l with
  | nil => simp [sortAsc]
  | cons a t ih => exact .trans (insertAsc_perm a (sortAsc t)) (.cons a ih)

theorem chain'_insertAsc {k : String} {l : List String}
    (h : List.Chain' (fun a b => strLe a b = true) l) :
    List.Chain' (fun a b => strLe a b = true) (insertAsc k l) := by
  induction l with
  | nil => simp [insertAsc]
  | cons b t ih =>
    rw [insertAsc]
    split_ifs with hkb
    · exact h.cons hkb
    · have hbk : strLe b k = true := strLe_of_not_strLe hkb
      rw [List.chain'_cons']
      refine ⟨?_, ih h.tail⟩
      intro y hy
      cases t with
      | nil =>
        simp [insertAsc] at hy
        subst hy; exact hbk
      | cons c u =>
        rw [insertAsc] at hy
        split_ifs at hy with hkc
        · simp at hy; subst hy; exact hbk
        · simp at hy; subst hy; exact h.rel_head

theorem sortAsc_chain' (l : List String) :
    List.Chain' (fun a b => strLe a b = true) (sortAsc l) := by
  induction l with
  | nil => simp [sortAsc]
  | cons a t ih => exact chain'_insertAsc ih

theorem mem_groupKeys {k : String} {l : List String} : k ∈ groupKeys l ↔ k ∈ l := by
  rw [groupKeys, (sortAsc_perm (dedupKeys l)).mem_iff, mem_dedupKeys]

theorem nodup_groupKeys (l : List String) : (groupKeys l).Nodup :=
  ((sortAsc_perm (dedupKeys l)).nodup_iff).mpr (nodup_dedupKeys l)

theorem chain'_and {α : Type} {R S : α → α → Prop} :
    ∀ {l : List α}, List.Chain' R l → List.Chain' S l →
      List.Chain' (fun a b => R a b ∧ S a b) l := by
  intro l
  induction l with
  | nil => intro _ _; simp
  | cons a t ih =>
    intro hR hS
    cases t with
    | nil => simp
    | cons b u =>
      exact (ih hR.tail hS.tail).cons ⟨hR.rel_head, hS.rel_head⟩

/-- The group keys are enumerated in strictly ascending lexicographic
order. -/
theorem groupKeys_chain'_strLt (l : List String) :
    List.Chain' (fun a b => strLt a b = true) (groupKeys l) := by
  have h1 : List.Chain' (fun a b => strLe a b = true) (groupKeys l) :=
    sortAsc_chain' (dedupKeys l)
  have h2 : List.Chain' (fun a b : String => a ≠ b) (groupKeys l) :=
    (nodup_groupKeys l).chain'
  exact (chain'_and h1 h2).imp (fun a b hab => strLt_of_strLe_of_ne hab.1 hab.2)

theorem abs_roundHalfEven_sub (z : ℚ) : |((roundHalfEven z : ℤ) : ℚ) - z| ≤ 1/2 := by
  have h1 : ((⌊z⌋ : ℤ) : ℚ) ≤ z := Int.floor_le z
  have h2 : z < ((⌊z⌋ : ℤ) : ℚ) + 1 := Int.lt_floor_add_one z
  simp only [roundHalfEven]
  split_ifs with ha hb hc
  · rw [abs_le]
    constructor <;> linarith
  · rw [abs_le]
    push_cast
    constructor <;> linarith
  · rw [abs_le]
    constructor <;> linarith
  · rw [abs_le]
    push_cast
    constructor <;> linarith

theorem abs_round2_sub (q : ℚ) : |round2 q - q| ≤ 1/200 := by
  have h := abs_roundHalfEven_sub (q * 100)
  have h100 : (0:ℚ) < 100 := by norm_num
  rw [round2, show ((roundHalfEven (q * 100) : ℤ) : ℚ)/100 - q
      = (((roundHalfEven (q * 100) : ℤ) : ℚ) - q * 100)/100 by ring,
    abs_div, abs_of_pos h100, div_le_iff₀ h100]
  linarith

theorem sum_map_round2_sub (l : List ℚ) :
    |(l.map round2).sum - l.sum| ≤ l.length * (1/200) := by
  induction l with
  | nil => simp
  | cons a t ih =>
    simp only [List.map_cons, List.sum_cons, List.length_cons]
    have h1 := abs_round2_sub a
    calc |round2 a + (t.map round2).sum - (a + t.sum)|
        = |(round2 a - a) + ((t.map round2).sum - t.sum)| := by ring_nf
      _ ≤ |round2 a - a| + |(t.map round2).sum - t.sum| := abs_add _ _
      _ ≤ 1/200 + t.length * (1/200) := add_le_add h1 ih
      _ = (t.length + 1 : ℕ) * (1/200) := by push_cast; ring

theorem sum_map_mul_right_q (l : List ℚ) (c : ℚ) :
    (l.map (fun x => x * c)).sum = l.sum * c := by
  induction l with
  | nil => simp
  | cons a t ih => simp [ih, add_mul]

theorem sum_map_share (l : List ℚ) (T : ℚ) (hT : T ≠ 0) (hsum : l.sum = T) :
    (l.map (fun x => x / T * 100)).sum = 100 := by
  have hfun : (fun x : ℚ => x / T * 100) = fun x => x * (100 / T) := by
    funext x; ring
  rw [hfun, sum_map_mul_right_q, hsum]
  field_simp

/-- A group key always has at least one record in its group. -/
theorem groupOf_length_pos {fr : Frame} {key : Record → String} {k : String}
    (hk : k ∈ groupKeys (fr.rows.map key)) : 0 < (groupOf fr key k).length := by
  rw [mem_groupKeys] at hk
  obtain ⟨r, hr, hrk⟩ := List.mem_map.mp hk
  have hmem : r ∈ groupOf fr key k := by
    rw [groupOf, List.mem_filter]
    exact ⟨hr, by simp [hrk]⟩
  exact List.length_pos.mpr (List.ne_nil_of_mem hmem)

/-! ## Evaluation of the views on the concrete fixtures -/

theorem catFrame_category_view :
    analyze_by_category catFrame = .ok [catRowB, catRowA] := by
  norm_num +decide [analyze_by_category, category_stats, total_sales, catFrame, schemaAll,
    rec0, catRowA, catRowB, groupKeys, dedupKeys, memberStr, sortAsc, insertAsc,
    sortDescBy, insertDescBy, groupOf, sumBy, round2, roundHalfEven,
    List.filter_cons, List.filter_nil]

theorem catFrame_customer_view :
    analyze_by_customer_type catFrame = .ok [custRowNew, custRowOld] := by
  norm_num +decide [analyze_by_customer_type, key_stats, catFrame, schemaAll, rec0,
    custRowNew, custRowOld, groupKeys, dedupKeys, memberStr, sortAsc, insertAsc,
    groupOf, sumBy, round2, roundHalfEven, List.filter_cons, List.filter_nil]

theorem catFrame_reps_view :
    analyze_sales_reps catFrame = .ok [repRow2, repRow1] := by
  norm_num +decide [analyze_sales_reps, rep_stats, catFrame, schemaAll, rec0,
    repRow1, repRow2, groupKeys, dedupKeys, memberStr, sortAsc, insertAsc,
    sortDescBy, insertDescBy, groupOf, sumBy, round2, roundHalfEven,
    List.filter_cons, List.filter_nil]

theorem catFrame_top_zero : get_top_products catFrame 0 = .ok [] := by
  simp [get_top_products, catFrame, schemaAll]

theorem tsFrame_view : analyze_sales_over_time tsFrame = .ok [timeRow0] := by
  norm_num +decide [analyze_sales_over_time, tsFrame, schemaNone, rec0, timeRow0,
    groupKeys, dedupKeys, memberStr, sortAsc, insertAsc, monthKey, pad2,
    groupOf, sumBy, round2, roundHalfEven, List.filter_cons, List.filter_nil]

/-! ## Claims -/

/-- C3: for every frame missing a view's required grouping column
(`Sale_Date`, `Product_Category`, `Region`, `Sales_Rep`, `Customer_Type`
or `Product_ID`), the corresponding view returns the empty table and
never raises. -/
theorem missing_grouping_column_yields_empty (fr : Frame) :
    (fr.schema.hasSaleDate = false → analyze_sales_over_time fr = .ok []) ∧
    (fr.schema.hasProductCategory = false → analyze_by_category fr = .ok []) ∧
    (fr.schema.hasRegion = false → analyze_by_region fr = .ok []) ∧
    (fr.schema.hasSalesRep = false → analyze_sales_reps fr = .ok []) ∧
    (fr.schema.hasCustomerType = false → analyze_by_customer_type fr = .ok []) ∧
    (∀ n : ℕ, fr.schema.hasProductId = false → get_top_products fr n = .ok []) := by
  refine ⟨fun h => ?_, fun h => ?_, fun h => ?_, fun h => ?_, fun h => ?_, fun n h => ?_⟩ <;>
    simp [analyze_sales_over_time, analyze_by_category, analyze_by_region,
      analyze_sales_reps, analyze_by_customer_type, get_top_products, h]

/-- Witness for C3: the frame with rows but no recognised columns yields
six empty views. -/
theorem missing_grouping_column_yields_empty_witness :
    analyze_sales_over_time frameNone = .ok [] ∧
    analyze_by_category frameNone = .ok [] ∧
    analyze_by_region frameNone = .ok [] ∧
    analyze_sales_reps frameNone = .ok [] ∧
    analyze_by_customer_type frameNone = .ok [] ∧
    get_top_products frameNone 10 = .ok [] :=
  have h := missing_grouping_column_yields_empty frameNone
  ⟨h.1 rfl, h.2.1 rfl, h.2.2.1 rfl, h.2.2.2.1 rfl, h.2.2.2.2.1 rfl, h.2.2.2.2.2 10 rfl⟩

/-- C8: `get_top_products` returns at most `n` rows, and `n = 0` yields
the empty table. -/
theorem top_products_at_most_n (fr : Frame) (n : ℕ) (rows : List ProdRow)
    (h : get_top_products fr n = .ok rows) :
    rows.length ≤ n ∧ (n = 0 → rows = []) := by
  rw [get_top_products] at h
  split_ifs at h with h1 h2
  · simp only [Except.ok.injEq] at h
    subst h
    simp
  · simp only [Except.ok.injEq] at h
    subst h
    refine ⟨?_, fun hn => ?_⟩
    · rw [List.length_take]
      exact min_le_left _ _
    · subst hn
      simp

/-- Witness for C8 at `catFrame` with `n = 0`. -/
theorem top_products_at_most_n_witness :
    ([] : List ProdRow).length ≤ 0 ∧ (0 = 0 → ([] : List ProdRow) = []) :=
  top_products_at_most_n catFrame 0 [] catFrame_top_zero

/-- C7: in each view sorted descending by revenue (category, region,
sales-rep, top-products), every adjacent pair of rows has
`row i revenue ≥ row i+1 revenue`. -/
theorem views_sorted_descending_by_revenue :
    (∀ (fr : Frame) (rows : List CatRow), analyze_by_category fr = .ok rows →
      List.Chain' (fun a b => b.revenue ≤ a.revenue) rows) ∧
    (∀ (fr : Frame) (rows : List KeyRow), analyze_by_region fr = .ok rows →
      List.Chain' (fun a b => b.revenue ≤ a.revenue) rows) ∧
    (∀ (fr : Frame) (rows : List RepRow), analyze_sales_reps fr = .ok rows →
      List.Chain' (fun a b => b.revenue ≤ a.revenue) rows) ∧
    (∀ (fr : Frame) (n : ℕ) (rows : List ProdRow), get_top_products fr n = .ok rows →
      List.Chain' (fun a b => b.revenue ≤ a.revenue) rows) := by
  refine ⟨fun fr rows h => ?_, fun fr rows h => ?_, fun fr rows h => ?_,
    fun fr n rows h => ?_⟩
  · rw [analyze_by_category] at h
    split_ifs at h <;> simp only [Except.ok.injEq] at h <;> subst h
    · simp
    · exact sortDescBy_chain' _ _
  · rw [analyze_by_region] at h
    split_ifs at h <;> simp only [Except.ok.injEq] at h <;> subst h
    · simp
    · exact sortDescBy_chain' _ _
  · rw [analyze_sales_reps] at h
    split_ifs at h <;> simp only [Except.ok.injEq] at h <;> subst h
    · simp
    · exact sortDescBy_chain' _ _
  · rw [get_top_products] at h
    split_ifs at h <;> simp only [Except.ok.injEq] at h <;> subst h
    · simp
    · exact (sortDescBy_chain' _ _).take n

/-- Witness for C7: the category view of `catFrame` is descending. -/
theorem views_sorted_descending_by_revenue_witness :
    List.Chain' (fun a b : CatRow => b.revenue ≤ a.revenue) [catRowB, catRowA] :=
  views_sorted_descending_by_revenue.1 catFrame [catRowB, catRowA] catFrame_category_view

/-- C10: the customer-type view returns its rows in ascending
lexicographic order of the customer-type key (the `groupby` enumeration
order); no further sorting is applied. -/
theorem customer_type_rows_ascending (fr : Frame) (rows : List KeyRow)
    (h : analyze_by_customer_type fr = .ok rows) :
    List.Chain' (fun a b => List.Lex (· < ·) a.key.data b.key.data) rows := by
  rw [analyze_by_customer_type] at h
  split_ifs at h <;> simp only [Except.ok.injEq] at h <;> subst h
  · simp
  · rw [key_stats, List.chain'_map]
    exact (groupKeys_chain'_strLt (fr.rows.map (fun r => r.customer_type))).imp
      (fun a b hab => strLt_iff_lex.mp hab)

/-- Witness for C10: the customer-type view of `catFrame` lists `new`
before `old`. -/
theorem customer_type_rows_ascending_witness :
    List.Chain' (fun a b : KeyRow => List.Lex (· < ·) a.key.data b.key.data)
      [custRowNew, custRowOld] :=
  customer_type_rows_ascending catFrame [custRowNew, custRowOld] catFrame_customer_view

/-- C5: in the sales-rep view no efficiency value is ever obtained by
dividing by a zero transaction count: a row with zero count would carry
no efficiency value, and every efficiency value that is present comes
from a row with positive count and equals the rounded revenue/count
ratio. -/
theorem rep_efficiency_no_division_by_zero (fr : Frame) (rows : List RepRow)
    (h : analyze_sales_reps fr = .ok rows) :
    ∀ r ∈ rows, (r.count = 0 → r.efficiency = none) ∧
      ∀ q, r.efficiency = some q →
        0 < r.count ∧ q = round2 (r.revenue / (r.count : ℚ)) := by
  rw [analyze_sales_reps] at h
  split_ifs at h with h1 h2 <;> simp only [Except.ok.injEq] at h <;> subst h
  · intro r hr
    exact absurd hr (by simp)
  · intro r hr
    rw [mem_sortDescBy] at hr
    by_cases hg : 0 < ((rep_stats fr).map (fun r => r.count)).sum
    · -- the guard is true: the efficiency column is attached to every row
      rw [if_pos hg] at hr
      obtain ⟨r0, hr0, rfl⟩ := List.mem_map.mp hr
      rw [rep_stats] at hr0
      obtain ⟨k, hk, rfl⟩ := List.mem_map.mp hr0
      have hcount : 0 < (groupOf fr (fun r => r.sales_rep) k).length :=
        groupOf_length_pos hk
      constructor
      · intro hzero
        exact absurd hcount
          (by simp [show (groupOf fr (fun r => r.sales_rep) k).length = 0 from hzero])
      · intro q hq
        exact ⟨hcount, (Option.some.inj hq).symm⟩
    · -- the guard is false: the efficiency column is never attached
      rw [if_neg hg] at hr
      rw [rep_stats] at hr
      obtain ⟨k, hk, rfl⟩ := List.mem_map.mp hr
      refine ⟨fun _ => rfl, fun q hq => ?_⟩
      exact absurd hq (by simp)

/-- Witness for C5: the `r2` row of `catFrame` has positive count and its
efficiency is the rounded revenue-per-transaction. -/
theorem rep_efficiency_no_division_by_zero_witness :
    0 < repRow2.count ∧ (300 : ℚ) = round2 (repRow2.revenue / (repRow2.count : ℚ)) :=
  (rep_efficiency_no_division_by_zero catFrame [repRow2, repRow1]
    catFrame_reps_view repRow2 (by simp)).2 300 rfl

/-- C9 (code bug): on the spec's two-record scenario with only sale
dates and amounts, `analyze_sales_over_time` raises `KeyError` because
the `agg` dictionary always names the absent `Profit` column; with a
profit column also present, the view does return exactly the claimed
single row (month `2023-01`, revenue 120, count 2). -/
theorem time_series_scenario_evaluated :
    analyze_sales_over_time tsFrameNoProfit =
      .error "KeyError: aggregation column does not exist" ∧
    analyze_sales_over_time tsFrame = .ok [timeRow0] :=
  ⟨rfl, tsFrame_view⟩

/-- C2 (code bug): a frame that has a view's grouping column but lacks
the optional `Profit` column makes the view raise `KeyError` instead of
returning rows without a profit column. -/
theorem views_raise_without_profit_column :
    analyze_by_category catFrameNoProfit =
      .error "KeyError: aggregation column does not exist" ∧
    analyze_sales_over_time tsFrameNoProfit =
      .error "KeyError: aggregation column does not exist" :=
  ⟨rfl, rfl⟩

/-- With all three measure columns present, the report assembles exactly
five entries, in insertion order; the region entry is the empty table
whenever `Region` is absent. -/
theorem report_five_entries (fr : Frame)
    (hsa : fr.schema.hasSalesAmount = true) (hpf : fr.schema.hasProfit = true)
    (hqs : fr.schema.hasQuantitySold = true) :
    ∃ t c r s p, get_comprehensive_report fr =
      .ok [("Временной_анализ", ViewResult.time t),
           ("Анализ_по_категориям", ViewResult.category c),
           ("Анализ_по_регионам", ViewResult.region r),
           ("Анализ_продавцов", ViewResult.reps s),
           ("Топ_продукты", ViewResult.top p)] ∧
      (fr.schema.hasRegion = false → r = []) := by
  have ht : ∃ t, analyze_sales_over_time fr = .ok t := by
    rw [analyze_sales_over_time, hsa, hpf]
    cases hd : fr.schema.hasSaleDate <;> simp
  have hc : ∃ c, analyze_by_category fr = .ok c := by
    rw [analyze_by_category, hsa, hpf, hqs]
    cases hd : fr.schema.hasProductCategory <;> simp
  have hs : ∃ s, analyze_sales_reps fr = .ok s := by
    rw [analyze_sales_reps, hsa, hpf]
    cases hd : fr.schema.hasSalesRep <;> simp
  have hp : ∃ p, get_top_products fr 10 = .ok p := by
    rw [get_top_products, hsa, hpf, hqs]
    cases hd : fr.schema.hasProductId <;> simp
  have hr : ∃ r, analyze_by_region fr = .ok r ∧ (fr.schema.hasRegion = false → r = []) := by
    rw [analyze_by_region, hsa, hpf]
    cases hd : fr.schema.hasRegion
    · exact ⟨[], by simp, fun _ => rfl⟩
    · refine ⟨sortDescBy (fun r => r.revenue) (key_stats fr (fun r => r.region)),
        by simp, fun hco => ?_⟩
      simp at hco
  obtain ⟨t, ht⟩ := ht
  obtain ⟨c, hc⟩ := hc
  obtain ⟨r, hrok, hrem⟩ := hr
  obtain ⟨s, hs⟩ := hs
  obtain ⟨p, hp⟩ := hp
  refine ⟨t, c, r, s, p, ?_, hrem⟩
  rw [get_comprehensive_report, ht, hc, hrok, hs, hp]

/-- C1 (amended): for every frame carrying the three measure columns the
comprehensive report returns a mapping with exactly FIVE keys — time
series, category, region, sales-rep and top-products; the customer-type
view is never included.  A missing `Region` column still leaves the
region key present, mapped to the empty table. -/
theorem report_contains_five_keys (fr : Frame)
    (hsa : fr.schema.hasSalesAmount = true) (hpf : fr.schema.hasProfit = true)
    (hqs : fr.schema.hasQuantitySold = true) :
    ∃ t c r s p, get_comprehensive_report fr =
      .ok [("Временной_анализ", ViewResult.time t),
           ("Анализ_по_категориям", ViewResult.category c),
           ("Анализ_по_регионам", ViewResult.region r),
           ("Анализ_продавцов", ViewResult.reps s),
           ("Топ_продукты", ViewResult.top p)] ∧
      (fr.schema.hasRegion = false → r = []) :=
  report_five_entries fr hsa hpf hqs

/-- Witness for C1 at the concrete frame lacking only `Region`: the key
list of the report. -/
theorem report_contains_five_keys_witness :
    reportKeys frameNoRegion =
      .ok ["Временной_анализ", "Анализ_по_категориям", "Анализ_по_регионам",
           "Анализ_продавцов", "Топ_продукты"] := by
  obtain ⟨t, c, r, s, p, heq, -⟩ := report_contains_five_keys frameNoRegion rfl rfl rfl
  rw [reportKeys, heq]
  rfl

/-- C1 counterexample: at the frame lacking only `Region` the report has
exactly five entries — there is no sixth (customer-type) key. -/
theorem report_lacks_customer_type_key :
    (get_comprehensive_report frameNoRegion).map (fun l => (l.map Prod.fst, l.length)) =
      .ok (["Временной_анализ", "Анализ_по_категориям", "Анализ_по_регионам",
            "Анализ_продавцов", "Топ_продукты"], 5) := by
  obtain ⟨t, c, r, s, p, heq, -⟩ := report_five_entries frameNoRegion rfl rfl rfl
  rw [heq]
  rfl

/-- C4 counterexample: with group revenues 1.006 and 1 the code outputs
shares 50.25 and 49.75 — computed from the rounded revenues 1.01 and 1 —
while a share computed from the unrounded sums would round to 50.15, so
rounding is applied at an intermediate step, not exactly once at
output. -/
theorem market_share_computed_from_rounded_revenues :
    (analyze_by_category c4Frame).map (fun rows => rows.map (fun r => r.share)) =
      .ok [5025/100, 4975/100] ∧
    round2 ((1006/1000 : ℚ) / (1006/1000 + 1) * 100) = 5015/100 ∧
    (5025 : ℚ)/100 ≠ 5015/100 := by
  refine ⟨?_, ?_, by norm_num⟩
  · norm_num +decide [analyze_by_category, category_stats, total_sales, c4Frame,
      schemaNone, rec0, groupKeys, dedupKeys, memberStr, sortAsc, insertAsc,
      sortDescBy, insertDescBy, groupOf, sumBy, round2, roundHalfEven,
      List.filter_cons, List.filter_nil, Except.map]
  · norm_num [round2, roundHalfEven]

/-- C4 (amended): every produced market share equals `round2` of
(rounded group revenue) / (sum of the rounded group revenues) × 100 —
the ratio is computed from already-rounded aggregates and rounded once
more at output. -/
theorem market_share_formula (fr : Frame) (rows : List CatRow)
    (h : analyze_by_category fr = .ok rows)
    (hT : (rows.map (fun r => r.revenue)).sum ≠ 0) :
    ∀ r ∈ rows, r.share = round2 (r.revenue / (rows.map (fun r => r.revenue)).sum * 100) := by
  rw [analyze_by_category] at h
  split_ifs at h with h1 h2 <;> simp only [Except.ok.injEq] at h <;> subst h
  · simp at hT
  · have hsum : ((sortDescBy (fun r : CatRow => r.revenue)
        ((category_stats fr).map (fun r =>
          { r with share := round2 (r.revenue / total_sales fr * 100) }))).map
        (fun r => r.revenue)).sum = total_sales fr := by
      rw [sortDescBy_map_sum, List.map_map]
      rfl
    intro r hr
    rw [mem_sortDescBy] at hr
    obtain ⟨r0, hr0, rfl⟩ := List.mem_map.mp hr
    show round2 (r0.revenue / total_sales fr * 100) = _
    rw [hsum]

/-- Witness for C4 at `catFrame`: the share of the `B` row is `round2`
of its rounded revenue over the output's total revenue. -/
theorem market_share_formula_witness :
    catRowB.share = round2 (catRowB.revenue /
      (([catRowB, catRowA].map (fun r => r.revenue)).sum) * 100) :=
  market_share_formula catFrame [catRowB, catRowA] catFrame_category_view
    (by norm_num [catRowA, catRowB]) catRowB (by simp)

set_option maxHeartbeats 4000000 in
/-- C6 counterexample: with 24 categories (23 of revenue 5 and one of
revenue 19885, total 20000) every share is an exact third-decimal tie
that rounds down, and the rounded shares sum to 99.88 — outside the
claimed tolerance 100 ± 0.1. -/
theorem market_share_sum_outside_tolerance :
    (analyze_by_category c6Frame).map (fun rows => (rows.map (fun r => r.share)).sum) =
      .ok (9988/100) ∧
    ¬ |(9988 : ℚ)/100 - 100| ≤ 1/10 := by
  constructor
  · norm_num +decide [analyze_by_category, category_stats, total_sales, c6Frame, catRec,
      schemaNone, rec0, groupKeys, dedupKeys, memberStr, sortAsc, insertAsc,
      sortDescBy, insertDescBy, groupOf, sumBy, round2, roundHalfEven,
      List.filter_cons, List.filter_nil, Except.map]
  · rw [show (9988 : ℚ)/100 - 100 = -(12/100) by norm_num, abs_neg,
      abs_of_pos (by norm_num : (0:ℚ) < 12/100)]
    norm_num

/-- C6 (amended): whenever the category view's total (rounded) revenue is
nonzero and there are at most 20 category rows, the market shares sum to
100 within 0.1 (each row contributes at most 0.005 of rounding error). -/
theorem category_share_sum_within_tolerance (fr : Frame) (rows : List CatRow)
    (h : analyze_by_category fr = .ok rows)
    (hT : (rows.map (fun r => r.revenue)).sum ≠ 0)
    (hn : rows.length ≤ 20) :
    |(rows.map (fun r => r.share)).sum - 100| ≤ 1/10 := by
  rw [analyze_by_category] at h
  split_ifs at h with h1 h2 <;> simp only [Except.ok.injEq] at h <;> subst h
  · simp at hT
  · have hrev : ((sortDescBy (fun r : CatRow => r.revenue)
        ((category_stats fr).map (fun r =>
          { r with share := round2 (r.revenue / total_sales fr * 100) }))).map
        (fun r => r.revenue)).sum = total_sales fr := by
      rw [sortDescBy_map_sum, List.map_map]
      rfl
    have hT0 : total_sales fr ≠ 0 := by
      rw [← hrev]
      exact hT
    have hlen : (category_stats fr).length ≤ 20 := by
      rwa [(sortDescBy_perm _ _).length_eq, List.length_map] at hn
    have hshare : ((sortDescBy (fun r : CatRow => r.revenue)
        ((category_stats fr).map (fun r =>
          { r with share := round2 (r.revenue / total_sales fr * 100) }))).map
        (fun r => r.share)).sum =
        ((((category_stats fr).map (fun r => r.revenue)).map
          (fun x => x / total_sales fr * 100)).map round2).sum := by
      rw [sortDescBy_map_sum, List.map_map, List.map_map, List.map_map]
      rfl
    rw [hshare]
    have h100 : (((category_stats fr).map (fun r => r.revenue)).map
        (fun x => x / total_sales fr * 100)).sum = 100 :=
      sum_map_share _ _ hT0 rfl
    have hbound := sum_map_round2_sub (((category_stats fr).map (fun r => r.revenue)).map
        (fun x => x / total_sales fr * 100))
    rw [h100] at hbound
    have hlen2 : ((((category_stats fr).map (fun r => r.revenue)).map
        (fun x => x / total_sales fr * 100))).length = (category_stats fr).length := by
      simp
    rw [hlen2] at hbound
    refine le_trans hbound ?_
    have hcast : ((category_stats fr).length : ℚ) ≤ 20 := by exact_mod_cast hlen
    have hmul : ((category_stats fr).length : ℚ) * (1/200) ≤ 20 * (1/200) :=
      mul_le_mul_of_nonneg_right hcast (by norm_num)
    linarith

/-- Witness for C6 at `catFrame`: the two shares 75 and 25 sum to exactly
100, within tolerance. -/
theorem category_share_sum_within_tolerance_witness :
    |(([catRowB, catRowA].map (fun r => r.share)).sum - 100 : ℚ)| ≤ 1/10 :=
  category_share_sum_within_tolerance catFrame [catRowB, catRowA] catFrame_category_view
    (by norm_num [catRowA, catRowB]) (by simp)

end SalesAnalysis
